import Mathlib

/-!
Verification of the resumable, checkpointed batch-fetch pipeline in
`src/regular_season_scraper.py` (ncaa_referee_bias).

The driver loop, the checkpoint store, the batch accumulator and the merge
step are embedded shallowly.  The external world (network fetch + field
extraction for one work item) is abstracted as a list of per-item outcomes:
`some r` when fetch and extraction succeed and produce the record `r`, and
`none` when any exception is raised for that item (caught by the per-item
`except` handler).  Durable effects (batch-file writes, resume-state writes)
are kept as chronological logs inside the run state, so that claims about
overwriting, checkpoint persistence and resume behaviour can be stated.
-/

set_option maxRecDepth 100000

namespace Scraper

/-- `BATCH_SIZE = 50`, the configured number of games per batch. -/
def BATCH_SIZE : Nat := 50

/-- The in-memory and durable state touched by one run of the script.
`batchData` and `failedGames` are the in-memory lists `batch_data` and
`failed_games`; `currentBatch` is `current_batch`.  `batchWrites` is the
chronological log of `save_batch_data` calls (batch number, rows written);
the durable content of a batch file is the last write with its number.
`resumeWrites` is the chronological log of `save_resume_state` calls; the
durable resume file holds the last value written (absent before the first
write). -/
structure RunState (α : Type) where
  batchData : List α
  failedGames : List Nat
  currentBatch : Nat
  batchWrites : List (Nat × List α)
  resumeWrites : List Nat
deriving DecidableEq, Repr

/-- `save_batch_data(batch_data, batch_num)`: `to_csv` writes the file for
this batch number, silently replacing any file of the same name. -/
def save_batch_data (writes : List (Nat × List α)) (batch_data : List α)
    (batch_num : Nat) : List (Nat × List α) :=
  writes ++ [(batch_num, batch_data)]

/-- `save_resume_state(last_completed_index)`: overwrite the resume file
with the given index (modelled as appending to the write log). -/
def save_resume_state (writes : List Nat) (last_completed_index : Nat) :
    List Nat :=
  writes ++ [last_completed_index]

/-- `load_resume_state()`: the current resume-file content, or `0` when the
file is absent (the `except` fallback). -/
def load_resume_state (s : RunState α) : Nat :=
  s.resumeWrites.getLast?.getD 0

/-- The body of the `for i in range(start_index, total_games)` loop for one
work item `i` with fetch/extract outcome `o`.  On success the record is
appended to `batch_data`; when `len(batch_data) >= BATCH_SIZE` the batch is
saved, `batch_data` reset and `current_batch` incremented; then
`save_resume_state(i)` runs.  On any exception the item is appended to
`failed_games` and the loop continues (no resume-state write). -/
def stepItem (s : RunState α) (i : Nat) (o : Option α) : RunState α :=
  match o with
  | some game_info =>
      let bd := s.batchData ++ [game_info]
      if BATCH_SIZE ≤ bd.length then
        { s with
          batchData := []
          currentBatch := s.currentBatch + 1
          batchWrites := save_batch_data s.batchWrites bd s.currentBatch
          resumeWrites := save_resume_state s.resumeWrites i }
      else
        { s with
          batchData := bd
          resumeWrites := save_resume_state s.resumeWrites i }
  | none =>
      { s with failedGames := s.failedGames ++ [i] }

/-- Run the loop body over a list of (index, outcome) pairs. -/
def runItems (s : RunState α) : List (Nat × Option α) → RunState α
  | [] => s
  | (i, o) :: rest => runItems (stepItem s i o) rest

/-- Start-of-run initialisation: `start_index = load_resume_state()`,
`current_batch = start_index // BATCH_SIZE + 1`, empty `batch_data` and
`failed_games`.  The durable logs are inherited from the previous state of
the world. -/
def initRun (prev : RunState α) : RunState α :=
  { batchData := []
    failedGames := []
    currentBatch := load_resume_state prev / BATCH_SIZE + 1
    batchWrites := prev.batchWrites
    resumeWrites := prev.resumeWrites }

/-- A world with no durable files yet (fresh first run). -/
def emptyState : RunState α :=
  { batchData := []
    failedGames := []
    currentBatch := 0
    batchWrites := []
    resumeWrites := [] }

/-- The (index, outcome) pairs processed by a run that starts at
`start_index`, given the outcome of every item of `game_data`. -/
def itemsFrom (outs : List (Option α)) (start_index : Nat) :
    List (Nat × Option α) :=
  List.enumFrom start_index (outs.drop start_index)

/-- The trailing-batch flush shared by normal completion (`if batch_data:`
after the loop) and the `KeyboardInterrupt` handler: a non-empty
`batch_data` is saved under the current batch number. -/
def flushPartial (s : RunState α) : RunState α :=
  if s.batchData.isEmpty then s
  else
    { s with
      batchWrites := save_batch_data s.batchWrites s.batchData s.currentBatch }

/-- A run that exhausts all work items and then flushes the trailing
partial batch. -/
def completedRun (outs : List (Option α)) (prev : RunState α) : RunState α :=
  flushPartial (runItems (initRun prev) (itemsFrom outs (load_resume_state prev)))

/-- A run interrupted by the user after processing `k` items (cancellation
is observed between items); the `KeyboardInterrupt` handler flushes the
partial batch and nothing else. -/
def interruptedRun (outs : List (Option α)) (prev : RunState α) (k : Nat) :
    RunState α :=
  flushPartial (runItems (initRun prev) ((itemsFrom outs (load_resume_state prev)).take k))

/-- A run that crashes (power loss) after processing `k` items: no handler
runs, nothing further is written. -/
def crashedRun (outs : List (Option α)) (prev : RunState α) (k : Nat) :
    RunState α :=
  runItems (initRun prev) ((itemsFrom outs (load_resume_state prev)).take k)

/-! ### Batch-file names and the merge step

`save_batch_data` names files `batch_{batch_num:04d}.csv`; `merge_batch_files`
lists the save directory, keeps names starting with `batch_` and ending in
`.csv`, sorts them (Python string comparison = lexicographic on character
code points), reads each file and concatenates them into
`ncaa_games_data_complete.csv`.  Decimal formatting of the batch number is
modelled by `decChars` (most-significant digit first, as `%d` renders a
non-negative integer), zero-padded to width 4 by `pad4`. -/

/-- Decimal digits of `n`, most significant first; structural fuel makes the
function kernel-reducible (the fuel `n` always suffices since the argument
is divided by 10 each step). -/
def decDigitsAux : Nat → Nat → List Char → List Char
  | 0, _, acc => acc
  | fuel + 1, n, acc =>
      if n = 0 then acc
      else decDigitsAux fuel (n / 10) (Nat.digitChar (n % 10) :: acc)

/-- The character sequence `%d` produces for a non-negative integer. -/
def decChars (n : Nat) : List Char :=
  if n = 0 then ['0'] else decDigitsAux n n []

/-- Zero-pad to width 4: the `04` in `{batch_num:04d}`. -/
def pad4 (cs : List Char) : List Char :=
  List.replicate (4 - cs.length) '0' ++ cs

/-- The file name `batch_{n:04d}.csv` as a character sequence. -/
def batchFileChars (n : Nat) : List Char :=
  "batch_".data ++ pad4 (decChars n) ++ ".csv".data

/-- Lexicographic comparison on code points: Python string `<=`. -/
def lexLe : List Char → List Char → Bool
  | [], _ => true
  | _ :: _, [] => false
  | c :: cs, d :: ds => if c = d then lexLe cs ds else decide (c < d)

/-- The order in which `sorted` lists the batch files of the save
directory. -/
def fileOrder (m n : Nat) : Prop :=
  lexLe (batchFileChars m) (batchFileChars n) = true

instance : DecidableRel fileOrder := fun _ _ => instDecidableEqBool _ _

/-- The batch numbers whose files exist, given the write log (one file per
name, regardless of how often it was rewritten). -/
def fileKeys (writes : List (Nat × List α)) : List Nat :=
  (writes.map Prod.fst).dedup

/-- The durable content of the file for batch `n`: the last write wins. -/
def readBatch (writes : List (Nat × List α)) (n : Nat) : List α :=
  (((writes.filter (fun p => p.1 == n)).getLast?).map Prod.snd).getD []

/-- `merge_batch_files()`: `None` when no batch files exist (and no final
file is written); otherwise the concatenation of all batch files in sorted
file-name order. -/
def merge_batch_files (writes : List (Nat × List α)) : Option (List α) :=
  let all_files := List.insertionSort fileOrder (fileKeys writes)
  if all_files.isEmpty then none
  else some (all_files.flatMap (readBatch writes))

/-- The durable files the merge step touches: the batch-file write log and
the final dataset `ncaa_games_data_complete.csv` (which lives outside the
save directory and is never read back by the merge). -/
structure Store (α : Type) where
  writes : List (Nat × List α)
  finalFile : Option (List α)
deriving DecidableEq, Repr

/-- Run `merge_batch_files` against the file system: when it returns a
dataset, `to_csv` replaces the final file with it; otherwise nothing is
written. -/
def runMerge (st : Store α) : Store α :=
  match merge_batch_files st.writes with
  | none => st
  | some final_df => { st with finalFile := some final_df }

/-- The `finally` block's effect on the final dataset file: it always
calls `merge_batch_files` (after saving the failure log). -/
def finallyMerge (s : RunState α) (finalFile : Option (List α)) :
    Option (List α) :=
  match merge_batch_files s.batchWrites with
  | none => finalFile
  | some final_df => some final_df

/-- The whole program when the user cancels after `k` items: the loop
prefix, the `KeyboardInterrupt` handler's partial-batch flush, then the
`finally` block (failure log + merge). -/
def interruptedProgram (outs : List (Option α)) (prev : RunState α) (k : Nat)
    (finalFile : Option (List α)) : RunState α × Option (List α) :=
  let s := interruptedRun outs prev k
  (s, finallyMerge s finalFile)

/-- The whole program on normal completion: the full loop, the trailing
flush, then the `finally` block. -/
def completedProgram (outs : List (Option α)) (prev : RunState α)
    (finalFile : Option (List α)) : RunState α × Option (List α) :=
  let s := completedRun outs prev
  (s, finallyMerge s finalFile)

/-! ### The field extractor

A raw table cell is either missing (`NaN`) or a text value; tables fetched
by `pd.read_html` are grids of cells.  Numeric literals are modelled as
non-negative decimal numerals (optionally containing `,` separators, which
`safe_convert_to_numeric` strips); cell access `iloc[r, c]` is modelled
total, yielding a missing cell out of range (extraction of a well-shaped
response stays in range). -/

/-- A raw cell of a fetched table: missing (`NaN`) or text. -/
inductive Cell where
  | na : Cell
  | txt : String → Cell
deriving DecidableEq, Repr

/-- A scalar stored in an extracted record. -/
inductive Val where
  | str : String → Val
  | num : Int → Val
deriving DecidableEq, Repr

/-- A fetched sub-table. -/
abbrev Table := List (List Cell)

/-- The decimal value of a digit character, `none` for anything else. -/
def digitVal (c : Char) : Option Nat :=
  if '0' ≤ c ∧ c ≤ '9' then some (c.toNat - 48) else none

/-- One step of numeral parsing: shift the accumulator and add the next
digit, failing on a non-digit. -/
def parseStep (acc : Option Nat) (c : Char) : Option Nat :=
  match acc, digitVal c with
  | some a, some d => some (10 * a + d)
  | _, _ => none

/-- Parse a non-empty all-digit character sequence as a number. -/
def parseNatChars (cs : List Char) : Option Nat :=
  if cs.isEmpty then none else cs.foldl parseStep (some 0)

/-- `safe_convert_to_numeric(value)`: `None` for a missing cell
(`pd.isna`), otherwise `pd.to_numeric(str(value).replace(',', ''))` with
`None` on conversion failure. -/
def safe_convert_to_numeric (value : Cell) : Option Int :=
  match value with
  | Cell.na => none
  | Cell.txt s =>
      (parseNatChars (s.data.filter (fun c => c ≠ ','))).map Int.ofNat

/-- `get_officials(officials_df)`: the argument is the `Official` column of
the officials table when that table exists (`officials[3] if
len(officials) > 3 else None`), a cell being `none` when `NaN`.  The guard
returns three `None`s when the table is absent, empty, or has fewer than
three rows; otherwise the column is padded with `None` (a no-op here) and
its first three entries are returned. -/
def get_officials (officials_df : Option (List (Option String))) :
    Option String × Option String × Option String :=
  match officials_df with
  | none => (none, none, none)
  | some df =>
      if df.isEmpty || df.length < 3 then (none, none, none)
      else
        let officials_list := df ++ List.replicate (3 - df.length) none
        (officials_list.getD 0 none, officials_list.getD 1 none,
         officials_list.getD 2 none)

/-- An extracted record: a Python dict in insertion order, every value a
scalar or `None`.  All keys assigned by the extractor are distinct, so
assignment and `update` append entries. -/
abbrev GameRecord := List (String × Option Val)

/-- `game_info[k]`: the latest assignment to key `k` (`none` both for an
absent key and for a key holding `None`; the extractor only reads keys it
has just assigned). -/
def dlookup (d : GameRecord) (k : String) : Option Val :=
  match d.reverse.find? (fun p => p.1 == k) with
  | some p => p.2
  | none => none

/-- Whether the dict has the key at all (`k in game_info`). -/
def hasKey (d : GameRecord) (k : String) : Bool :=
  d.any (fun p => p.1 == k)

/-- `table.iloc[r, c]`, total with a missing cell as default. -/
def iloc (t : Table) (r c : Nat) : Cell :=
  (t.getD r []).getD c Cell.na

/-- `box_score[1].iloc[r, c] if len(box_score) > 1 and not
box_score[1].empty else None`, for a raw text field (team name, venue,
time). -/
def bsStr (t : Option Table) (r c : Nat) : Option Val :=
  match t with
  | some tb =>
      if tb.isEmpty then none
      else
        match iloc tb r c with
        | Cell.na => none
        | Cell.txt s => some (Val.str s)
  | none => none

/-- `safe_convert_to_numeric(box_score[1].iloc[r, c]) if len(box_score) > 1
and not box_score[1].empty else None`. -/
def bsNum (t : Option Table) (r c : Nat) : Option Val :=
  match t with
  | some tb =>
      if tb.isEmpty then none
      else (safe_convert_to_numeric (iloc tb r c)).map Val.num
  | none => none

/-- `safe_convert_to_numeric(period_stats.iloc[r, c]) if not
period_stats.empty else None` inside the team-stats block. -/
def tsNum (period_stats : Table) (r c : Nat) : Option Val :=
  if period_stats.isEmpty then none
  else (safe_convert_to_numeric (iloc period_stats r c)).map Val.num

/-- The 15 entries assigned unconditionally when the `game_info` dict is
built (box-score fields guarded individually, officials from
`get_officials`). -/
def baseRecord (game_id game_date : Val) (box_score1 : Option Table)
    (officials_col : Option (List (Option String))) : GameRecord :=
  let o := get_officials officials_col
  [("Game_ID", some game_id),
   ("Date", some game_date),
   ("Home_Team", bsStr box_score1 1 0),
   ("Away_Team", bsStr box_score1 2 0),
   ("Home_Score_1H", bsNum box_score1 1 1),
   ("Home_Score_2H", bsNum box_score1 1 2),
   ("Home_Score_Final", bsNum box_score1 1 3),
   ("Away_Score_1H", bsNum box_score1 2 1),
   ("Away_Score_2H", bsNum box_score1 2 2),
   ("Away_Score_Final", bsNum box_score1 2 3),
   ("Venue", bsStr box_score1 4 0),
   ("Game_Time", bsStr box_score1 3 0),
   ("Official_1", o.1.map Val.str),
   ("Official_2", o.2.1.map Val.str),
   ("Official_3", o.2.2.map Val.str)]

/-- The 16 entries `game_info.update({...})` adds inside the team-stats
block. -/
def teamStatsEntries (period_stats : Table) : GameRecord :=
  [("Home_Personal_Fouls", tsNum period_stats 9 1),
   ("Away_Personal_Fouls", tsNum period_stats 9 2),
   ("Home_FTM", tsNum period_stats 7 1),
   ("Away_FTM", tsNum period_stats 7 2),
   ("Home_FTA", tsNum period_stats 8 1),
   ("Away_FTA", tsNum period_stats 8 2),
   ("Home_FT_Percentage", tsNum period_stats 8 1),
   ("Away_FT_Percentage", tsNum period_stats 8 2),
   ("Home_Technical_Fouls", tsNum period_stats 10 1),
   ("Away_Technical_Fouls", tsNum period_stats 10 2),
   ("Home_Flagrant_Fouls", tsNum period_stats 11 1),
   ("Away_Flagrant_Fouls", tsNum period_stats 11 2),
   ("Home_Fouls_1H", tsNum period_stats 12 1),
   ("Away_Fouls_1H", tsNum period_stats 12 2),
   ("Home_Fouls_2H", tsNum period_stats 13 1),
   ("Away_Fouls_2H", tsNum period_stats 13 2)]

/-- `if game_info['Home_Personal_Fouls'] is not None and
game_info['Away_Personal_Fouls'] is not None:` — assign the foul
differential and the total fouls (both stored values are numbers when
present, since they come from `safe_convert_to_numeric`). -/
def fdExtend (u : GameRecord) : GameRecord :=
  match dlookup u "Home_Personal_Fouls", dlookup u "Away_Personal_Fouls" with
  | some (Val.num h), some (Val.num a) =>
      u ++ [("Foul_Differential", some (Val.num (h - a))),
            ("Total_Fouls", some (Val.num (h + a)))]
  | _, _ => u

/-- `if game_info['Home_FTA'] is not None and game_info['Away_FTA'] is not
None:` — assign the free-throw differential. -/
def ftdExtend (u : GameRecord) : GameRecord :=
  match dlookup u "Home_FTA", dlookup u "Away_FTA" with
  | some (Val.num h), some (Val.num a) =>
      u ++ [("Free_Throw_Differential", some (Val.num (h - a)))]
  | _, _ => u

/-- The `game_info` dict built for one game: the 15 always-present fields,
then — only when `len(team_stats) > 3 and not team_stats[3].empty` — the 16
foul/free-throw fields via `update`, followed by the two conditional
derived-field assignments.  `box_score1`/`team_stats3` are
`box_score[1]`/`team_stats[3]` when those indices exist, else `none`. -/
def game_info (game_id game_date : Val) (box_score1 : Option Table)
    (team_stats3 : Option Table)
    (officials_col : Option (List (Option String))) : GameRecord :=
  let base := baseRecord game_id game_date box_score1 officials_col
  match team_stats3 with
  | some period_stats =>
      if period_stats.isEmpty then base
      else ftdExtend (fdExtend (base ++ teamStatsEntries period_stats))
  | none => base

/-- The entries the foul-differential assignment appends, as a function of
the team-stats sub-table. -/
def fdPart (ps : Table) : GameRecord :=
  match tsNum ps 9 1, tsNum ps 9 2 with
  | some (Val.num h), some (Val.num a) =>
      [("Foul_Differential", some (Val.num (h - a))),
       ("Total_Fouls", some (Val.num (h + a)))]
  | _, _ => []

/-- The entries the free-throw-differential assignment appends, as a
function of the team-stats sub-table. -/
def ftdPart (ps : Table) : GameRecord :=
  match tsNum ps 8 1, tsNum ps 8 2 with
  | some (Val.num h), some (Val.num a) =>
      [("Free_Throw_Differential", some (Val.num (h - a)))]
  | _, _ => []

/-- Whether the team-stats block runs at all: `len(team_stats) > 3 and not
team_stats[3].empty`. -/
def tsPresent (ts : Option Table) : Bool :=
  match ts with
  | some ps => !ps.isEmpty
  | none => false

/-- Whether a derived field with inputs in row `r` (columns 1 and 2 of the
team-stats sub-table) gets assigned: the block runs and both converted
inputs are non-null. -/
def derivedPresent (ts : Option Table) (r : Nat) : Bool :=
  match ts with
  | some ps => !ps.isEmpty && ((tsNum ps r 1).isSome && (tsNum ps r 2).isSome)
  | none => false

/-! ### The checkpoint file at the byte level

`save_resume_state` opens `resume_state.txt` in mode `'w'` — which
truncates the file in place — and then writes `str(last_completed_index)`.
A crash can therefore happen before the truncation (old content survives)
or after it, with any number of characters of the new value already
written.  `load_resume_state` reads the file, strips whitespace, parses an
integer, and falls back to `0` on any failure. -/

namespace Ckpt

/-- The text `save_resume_state` writes: `str(i)`. -/
def resumeText (i : Nat) : List Char := decChars i

/-- Every content the resume file can hold if the process dies during
`save_resume_state(i)` over previous content `old`: the old content
(crash before the truncating open), or any first part of the new text
(crash after the open, mid-write); the last entry is the completed
write. -/
def saveCrashStates (old : List Char) (i : Nat) : List (List Char) :=
  old :: (List.range ((resumeText i).length + 1)).map
    (fun j => (resumeText i).take j)

/-- `s.strip()` for the whitespace-stripping in `load_resume_state`. -/
def stripChars (cs : List Char) : List Char :=
  ((cs.dropWhile (fun c => c.isWhitespace)).reverse.dropWhile
    (fun c => c.isWhitespace)).reverse

/-- `load_resume_state()` as a function of the file content:
`int(f.read().strip())` with the `except` fallback `0`. -/
def load_resume_file (content : List Char) : Nat :=
  (parseNatChars (stripChars content)).getD 0

end Ckpt

/-! ### Concrete scenarios from the specification -/

/-- 120 work items where only item 77 fails during fetch (the record of a
successful item is identified with its index). -/
def scenario120 : List (Option Nat) :=
  (List.range 120).map (fun i => if i = 77 then none else some i)

/-- 100 work items that all succeed. -/
def scenario100 : List (Option Nat) :=
  (List.range 100).map some

/-- The world after the 100-item run is cancelled once items 0–45 have been
processed (cancellation after item 45). -/
def cancelledAfter45 : RunState Nat :=
  interruptedRun scenario100 emptyState 46

/-- Three successful work items, for the cancellation scenario of the
termination contract. -/
def scenario3 : List (Option Nat) :=
  [some 10, some 11, some 12]

/-- The 15 field names every extracted record receives before the
team-stats block. -/
def baseKeys : List String :=
  ["Game_ID", "Date", "Home_Team", "Away_Team", "Home_Score_1H",
   "Home_Score_2H", "Home_Score_Final", "Away_Score_1H", "Away_Score_2H",
   "Away_Score_Final", "Venue", "Game_Time", "Official_1", "Official_2",
   "Official_3"]

/-- A well-shaped team-stats sub-table (14 rows of label, home value, away
value) whose home personal-foul cell (row 9, column 1) is missing. -/
def tsMissingPF : Table :=
  (List.range 14).map
    (fun r =>
      if r = 9 then [Cell.txt "PF", Cell.na, Cell.txt "11"]
      else [Cell.txt "lbl", Cell.txt (toString (r + 1)), Cell.txt (toString (r + 2))])

/-- A fully populated team-stats sub-table: row `r` holds home value `r+1`
and away value `r+2`. -/
def tsFull : Table :=
  (List.range 14).map
    (fun r =>
      [Cell.txt "lbl", Cell.txt (toString (r + 1)), Cell.txt (toString (r + 2))])

/-- The loop invariant of a run whose world started with no batch files:
the accumulator stays below capacity, the batch counter tracks the number
of flushes, flushed batch numbers are the consecutive range starting at the
initial counter value, and every flushed batch is full. -/
def freshBatchInv {α : Type} (c0 : Nat) (s : RunState α) : Prop :=
  s.batchData.length < BATCH_SIZE ∧
  s.currentBatch = c0 + s.batchWrites.length ∧
  s.batchWrites.map Prod.fst = List.range' c0 s.batchWrites.length ∧
  ∀ w ∈ s.batchWrites, w.2.length = BATCH_SIZE

/-! ## Theorems -/

/-- A non-empty batch-file write log makes `merge_batch_files` produce a
dataset. -/
theorem merge_batch_files_isSome {α : Type} (writes : List (Nat × List α))
    (h : writes ≠ []) : ∃ d, merge_batch_files writes = some d := by
  simp only [merge_batch_files]
  split
  case isTrue hE =>
    rw [List.isEmpty_iff] at hE
    have hperm := List.perm_insertionSort fileOrder (fileKeys writes)
    rw [hE] at hperm
    have : fileKeys writes = [] := (hperm.symm).eq_nil
    rw [fileKeys, List.dedup_eq_nil, List.map_eq_nil_iff] at this
    exact absurd this h
  case isFalse => exact ⟨_, rfl⟩

/-- C3 amended: the `KeyboardInterrupt` handler flushes the partial batch
but writes no checkpoint (the resume-state log is exactly the loop's), and
the `finally` block still merges: whenever at least one batch file exists,
the interrupted program ends with the final dataset written. -/
theorem interrupt_flushes_and_finally_merges {α : Type}
    (outs : List (Option α)) (prev : RunState α) (k : Nat)
    (ff : Option (List α)) :
    (interruptedRun outs prev k).resumeWrites =
      (runItems (initRun prev)
        ((itemsFrom outs (load_resume_state prev)).take k)).resumeWrites ∧
    ((interruptedRun outs prev k).batchWrites ≠ [] →
      ∃ d, (interruptedProgram outs prev k ff).2 = some d) := by
  constructor
  · unfold interruptedRun flushPartial
    split <;> rfl
  · intro h
    obtain ⟨d, hd⟩ :=
      merge_batch_files_isSome (interruptedRun outs prev k).batchWrites h
    refine ⟨d, ?_⟩
    simp only [interruptedProgram, finallyMerge, hd]

/-- Witness for C3: the three-item run cancelled after two items keeps the
loop's checkpoint log and still ends with a written final dataset. -/
theorem interrupt_flushes_and_finally_merges_witness :
    (interruptedRun scenario3 emptyState 2).resumeWrites =
      (runItems (initRun (emptyState : RunState Nat))
        ((itemsFrom scenario3
          (load_resume_state (emptyState : RunState Nat))).take 2)).resumeWrites ∧
    ∃ d, (interruptedProgram scenario3 emptyState 2 none).2 = some d := by
  have h := interrupt_flushes_and_finally_merges scenario3 emptyState 2 none
  exact ⟨h.1, h.2 (by decide)⟩

/-- One loop iteration preserves the fresh-run batch invariant. -/
theorem freshBatchInv_step {α : Type} (c0 : Nat) (s : RunState α) (i : Nat)
    (o : Option α) (h : freshBatchInv c0 s) :
    freshBatchInv c0 (stepItem s i o) := by
  obtain ⟨h1, h2, h3, h4⟩ := h
  cases o with
  | none => exact ⟨h1, h2, h3, h4⟩
  | some r =>
    simp only [stepItem]
    split
    case isTrue hlen =>
      have hfull : (s.batchData ++ [r]).length = BATCH_SIZE := by
        rw [List.length_append] at hlen ⊢
        simp only [List.length_singleton] at hlen ⊢
        omega
      refine ⟨by simp [BATCH_SIZE], ?_, ?_, ?_⟩
      · simp only [save_batch_data, List.length_append, List.length_singleton]
        omega
      · simp only [save_batch_data, List.map_append, List.length_append,
          List.length_singleton, List.map_cons, List.map_nil]
        rw [h3, h2, List.range'_concat]
        simp
      · intro w hw
        simp only [save_batch_data, List.mem_append, List.mem_singleton] at hw
        rcases hw with hw | hw
        · exact h4 w hw
        · rw [hw]
          exact hfull
    case isFalse hlen =>
      refine ⟨?_, h2, h3, h4⟩
      rw [List.length_append] at hlen ⊢
      simp only [List.length_singleton] at hlen ⊢
      omega

/-- The whole loop preserves the fresh-run batch invariant. -/
theorem freshBatchInv_run {α : Type} (c0 : Nat)
    (items : List (Nat × Option α)) :
    ∀ s : RunState α, freshBatchInv c0 s →
      freshBatchInv c0 (runItems s items) := by
  induction items with
  | nil => intro s h; exact h
  | cons it rest ih =>
      intro s h
      obtain ⟨i, o⟩ := it
      exact ih _ (freshBatchInv_step c0 s i o h)

/-- C5 amended: in any single run over a world with no prior batch files,
the flushed batch numbers form the consecutive range starting at the
initial `current_batch`, and every flushed batch except possibly the last
holds exactly `BATCH_SIZE` records. -/
theorem single_run_batch_invariant {α : Type}
    (items : List (Nat × Option α)) (s0 : RunState α)
    (h1 : s0.batchData = []) (h2 : s0.batchWrites = []) :
    (flushPartial (runItems s0 items)).batchWrites.map Prod.fst =
      List.range' s0.currentBatch
        (flushPartial (runItems s0 items)).batchWrites.length ∧
    ∀ w ∈ (flushPartial (runItems s0 items)).batchWrites.dropLast,
      w.2.length = BATCH_SIZE := by
  have hInv : freshBatchInv s0.currentBatch s0 := by
    refine ⟨?_, ?_, ?_, ?_⟩
    · rw [h1]; simp [BATCH_SIZE]
    · rw [h2]; rfl
    · rw [h2]; rfl
    · rw [h2]; intro w hw; cases hw
  obtain ⟨k1, k2, k3, k4⟩ := freshBatchInv_run s0.currentBatch items s0 hInv
  unfold flushPartial
  split
  case isTrue hbd =>
    exact ⟨k3, fun w hw => k4 w (List.dropLast_subset _ hw)⟩
  case isFalse hbd =>
    constructor
    · simp only [save_batch_data, List.map_append, List.length_append,
        List.map_cons, List.map_nil, List.length_singleton]
      rw [k3, k2, List.range'_concat]
      simp
    · intro w hw
      simp only [save_batch_data, List.dropLast_concat] at hw
      exact k4 w hw

/-- Witness for C5: a fresh one-item run flushes a single partial batch
numbered with the initial counter value, and the no-gap/full-batch
properties hold for it. -/
theorem single_run_batch_invariant_witness :
    (flushPartial (runItems (initRun (emptyState : RunState Nat))
        [(0, some 5)])).batchWrites.map Prod.fst =
      List.range' (initRun (emptyState : RunState Nat)).currentBatch
        (flushPartial (runItems (initRun (emptyState : RunState Nat))
          [(0, some 5)])).batchWrites.length ∧
    ∀ w ∈ (flushPartial (runItems (initRun (emptyState : RunState Nat))
        [(0, some 5)])).batchWrites.dropLast,
      w.2.length = BATCH_SIZE :=
  single_run_batch_invariant [(0, some 5)] (initRun emptyState) rfl rfl

/-- C1: after the run over 100 succeeding items is cancelled following item
45, the persisted checkpoint loads as 45 — not 46 as the specification
requires — and the restarted driver fetches item 45 next, reprocessing a
completed item.  `save_resume_state(i)` stores the index of the item just
completed, but the restart begins the loop at exactly that index instead of
the next one. -/
theorem resume_reprocesses_last_completed_item :
    load_resume_state cancelledAfter45 = 45 ∧
    (itemsFrom scenario100 (load_resume_state cancelledAfter45)).head?.map
      Prod.fst = some 45 := by
  decide

/-- C2 counterexample: when item 0 fails, the per-item `except` handler
records the failure and continues without any checkpoint write, so no
checkpoint for item 0 is persisted before the run moves to item 1 — the
claim requires one for success and failure alike. -/
theorem no_checkpoint_write_on_failure :
    (stepItem (initRun (emptyState : RunState Nat)) 0 none).resumeWrites = []
      ∧
    (stepItem (initRun (emptyState : RunState Nat)) 0 none).failedGames =
      [0] := by
  decide

/-- C2 amended: the checkpoint `i` is persisted before moving on only when
item `i` succeeds; on a failure the resume-state write log — and hence the
durable checkpoint — is left untouched. -/
theorem checkpoint_persisted_only_on_success {α : Type} (s : RunState α)
    (i : Nat) (r : α) :
    load_resume_state (stepItem s i (some r)) = i ∧
    (stepItem s i none).resumeWrites = s.resumeWrites := by
  refine ⟨?_, rfl⟩
  simp only [stepItem, load_resume_state, save_resume_state]
  split <;> simp [List.getLast?_concat]

/-- C3 counterexample: the program cancelled after two of the three items
still writes the final dataset, because the `finally` block merges the
batch files on every termination path — the claim says an interrupted run
exits without merging. -/
theorem interrupted_run_still_merges :
    (interruptedProgram scenario3 emptyState 2 none).2 = some [10, 11] := by
  decide

/-- C4: an officials table holding exactly one or two officials makes
`get_officials` return three `None`s — the present officials are discarded
by the `len(officials_df) < 3` guard, although the function's own
padding step (`extend([None] * (3 - len))`, unreachable for short lists)
shows they were meant to be kept with the missing slots null. -/
theorem short_officials_table_discarded :
    get_officials (some [some "Smith"]) = (none, none, none) ∧
    get_officials (some [some "Smith", some "Jones"]) = (none, none, none) := by
  decide

/-- C5 counterexample: after the 100-item run is cancelled following item
45 (its 46 records flushed as batch 1), the resumed run recomputes
`current_batch = 45 // 50 + 1 = 1` and flushes its first 50 records as
batch 1 again — the file of batch 1 is written twice with different
contents, so a previously written batch file is overwritten after a
resume. -/
theorem batch_file_overwritten_after_resume :
    (completedRun scenario100 cancelledAfter45).batchWrites.map
      (fun w => (w.1, w.2.length)) = [(1, 46), (1, 50), (2, 5)] := by
  decide

/-- C6 counterexample: in the 120-item scenario with item 77 failing, the
partial batch flushed at completion holds 19 records, not the 20 the claim
states (the 119 successes split as 50 + 50 + 19). -/
theorem scenario120_partial_batch_has_19_records :
    (completedRun scenario120 emptyState).batchWrites.map
      (fun w => (w.1, w.2.length)) = [(1, 50), (2, 50), (3, 19)] := by
  decide

/-- C6 amended: the 120-item run with item 77 failing flushes two full
batches of 50 and one partial batch of 19 records, records exactly one
failure entry (item 77), ends with checkpoint 119, and merges into a final
dataset of 119 records. -/
theorem scenario120_postcondition :
    (completedRun scenario120 emptyState).batchWrites.map
      (fun w => (w.1, w.2.length)) = [(1, 50), (2, 50), (3, 19)] ∧
    (completedRun scenario120 emptyState).failedGames = [77] ∧
    load_resume_state (completedRun scenario120 emptyState) = 119 ∧
    (merge_batch_files
        (completedRun scenario120 emptyState).batchWrites).map
      List.length = some 119 := by
  decide

/-- C7 counterexample: with the team-stats sub-table absent the extracted
record is missing the `Home_Personal_Fouls` and `Foul_Differential` keys
altogether (rather than holding them with null values), and with the table
present but the home personal-foul cell missing, the derived
`Foul_Differential` key is likewise absent rather than null. -/
theorem absent_team_stats_yields_missing_fields :
    hasKey (game_info (Val.num 1) (Val.str "d") none none none)
      "Home_Personal_Fouls" = false ∧
    hasKey (game_info (Val.num 1) (Val.str "d") none none none)
      "Foul_Differential" = false ∧
    hasKey (game_info (Val.num 1) (Val.str "d") none (some tsMissingPF) none)
      "Home_Personal_Fouls" = true ∧
    hasKey (game_info (Val.num 1) (Val.str "d") none (some tsMissingPF) none)
      "Foul_Differential" = false := by
  decide

/-- C8 counterexample: saving checkpoint 123 over previous content `45`
can crash after two characters of the in-place write, leaving the file
holding `12` — a parseable but wrong value, equal neither to the old
checkpoint nor to the new one, which the claimed write-new-then-replace
discipline would have made impossible. -/
theorem crashed_save_leaves_ambiguous_value :
    "12".data ∈ Ckpt.saveCrashStates "45".data 123 ∧
    Ckpt.load_resume_file "12".data = 12 ∧
    Ckpt.load_resume_file "45".data = 45 ∧
    Ckpt.load_resume_file (Ckpt.resumeText 123) = 123 := by
  decide

/-- Exhausted-fuel base case: rendering `0` adds no characters. -/
theorem decDigitsAux_zero (f : Nat) (acc : List Char) :
    decDigitsAux f 0 acc = acc := by
  cases f <;> rfl

/-- The accumulator of `decDigitsAux` is a suffix: rendering onto `acc`
is rendering onto `[]` followed by `acc`, for any sufficient fuel. -/
theorem decDigitsAux_shift (n : Nat) : ∀ f acc, 0 < n → n ≤ f →
    decDigitsAux f n acc = decDigitsAux n n [] ++ acc := by
  induction n using Nat.strong_induction_on with
  | _ n ih =>
    intro f acc hn hf
    obtain ⟨m, rfl⟩ : ∃ m, n = m + 1 := ⟨n - 1, by omega⟩
    obtain ⟨g, rfl⟩ : ∃ g, f = g + 1 := ⟨f - 1, by omega⟩
    simp only [decDigitsAux]
    rw [if_neg (by omega), if_neg (by omega)]
    by_cases hq : (m + 1) / 10 = 0
    · rw [hq, decDigitsAux_zero, decDigitsAux_zero]
      rfl
    · have hlt : (m + 1) / 10 < m + 1 := Nat.div_lt_self (by omega) (by omega)
      rw [ih _ hlt g _ (by omega) (by omega),
          ih _ hlt m _ (by omega) (by omega), List.append_assoc]
      rfl

/-- A number below ten renders as its single digit character. -/
theorem decChars_lt10 (n : Nat) (h : n < 10) :
    decChars n = [Nat.digitChar n] := by
  rcases Nat.eq_zero_or_pos n with h0 | h0
  · subst h0; rfl
  · obtain ⟨m, rfl⟩ : ∃ m, n = m + 1 := ⟨n - 1, by omega⟩
    simp only [decChars]
    rw [if_neg (by omega)]
    simp only [decDigitsAux]
    rw [if_neg (by omega), Nat.div_eq_of_lt h, decDigitsAux_zero,
      Nat.mod_eq_of_lt h]

/-- A number of at least ten renders as its leading digits followed by its
last digit. -/
theorem decChars_ge10 (n : Nat) (h : 10 ≤ n) :
    decChars n = decChars (n / 10) ++ [Nat.digitChar (n % 10)] := by
  obtain ⟨m, rfl⟩ : ∃ m, n = m + 1 := ⟨n - 1, by omega⟩
  have h10 : (m + 1) / 10 ≠ 0 := by omega
  simp only [decChars]
  rw [if_neg (by omega), if_neg h10]
  simp only [decDigitsAux]
  rw [if_neg (by omega)]
  exact decDigitsAux_shift _ _ _ (by omega) (by omega)

/-- Parsing one digit character shifts the accumulator. -/
theorem parseStep_digit (a d : Nat) (hd : d < 10) :
    parseStep (some a) (Nat.digitChar d) = some (10 * a + d) := by
  interval_cases d <;> rfl

/-- Folding the parser over a rendered numeral recovers the number, scaled
past the accumulated prefix value. -/
theorem foldl_parseStep_decChars (n : Nat) : ∀ a : Nat,
    List.foldl parseStep (some a) (decChars n) =
      some (a * 10 ^ (decChars n).length + n) := by
  induction n using Nat.strong_induction_on with
  | _ n ih =>
    intro a
    rcases lt_or_le n 10 with h | h
    · rw [decChars_lt10 n h]
      simp only [List.foldl_cons, List.foldl_nil, List.length_cons,
        List.length_nil]
      rw [parseStep_digit a n h, pow_one, Nat.mul_comm a 10]
    · rw [decChars_ge10 n h, List.foldl_append]
      have hq : n / 10 < n := Nat.div_lt_self (by omega) (by omega)
      rw [ih _ hq a]
      simp only [List.foldl_cons, List.foldl_nil, List.length_append,
        List.length_cons, List.length_nil]
      rw [parseStep_digit _ _ (Nat.mod_lt n (by omega))]
      congr 1
      rw [pow_succ, ← mul_assoc]
      set K := a * 10 ^ (decChars (n / 10)).length
      omega

/-- A rendered numeral is never empty. -/
theorem decChars_ne_nil (n : Nat) : decChars n ≠ [] := by
  rcases lt_or_le n 10 with h | h
  · rw [decChars_lt10 n h]; simp
  · rw [decChars_ge10 n h]; simp

/-- Parsing a rendered numeral recovers the number. -/
theorem parseNatChars_decChars (n : Nat) :
    parseNatChars (decChars n) = some n := by
  unfold parseNatChars
  rw [if_neg (by simp [List.isEmpty_iff, decChars_ne_nil n]),
    foldl_parseStep_decChars n 0]
  simp

/-- Digit characters sit between `'0'` and `'9'`. -/
theorem digitChar_bounds (d : Nat) (h : d < 10) :
    '0' ≤ Nat.digitChar d ∧ Nat.digitChar d ≤ '9' := by
  interval_cases d <;> exact ⟨by decide, by decide⟩

/-- Every character of a rendered numeral is a digit. -/
theorem decChars_all_digits (n : Nat) :
    ∀ c ∈ decChars n, '0' ≤ c ∧ c ≤ '9' := by
  induction n using Nat.strong_induction_on with
  | _ n ih =>
    rcases lt_or_le n 10 with h | h
    · rw [decChars_lt10 n h]
      intro c hc
      rw [List.mem_singleton] at hc
      rw [hc]
      exact digitChar_bounds n h
    · rw [decChars_ge10 n h]
      intro c hc
      rw [List.mem_append] at hc
      rcases hc with hc | hc
      · exact ih _ (Nat.div_lt_self (by omega) (by omega)) c hc
      · rw [List.mem_singleton] at hc
        rw [hc]
        exact digitChar_bounds _ (Nat.mod_lt n (by omega))

/-- Digit characters are not whitespace. -/
theorem digit_not_whitespace (c : Char) (h1 : '0' ≤ c) (h2 : c ≤ '9') :
    c.isWhitespace = false := by
  by_contra hws
  rw [Bool.not_eq_false] at hws
  simp only [Char.isWhitespace, Bool.or_eq_true, decide_eq_true_eq] at hws
  rcases hws with ((h | h) | h) | h <;> subst h <;> exact absurd h1 (by decide)

/-- Dropping leading whitespace from an all-digit sequence changes
nothing. -/
theorem dropWhile_whitespace_of_digits (l : List Char)
    (hl : ∀ c ∈ l, '0' ≤ c ∧ c ≤ '9') :
    l.dropWhile (fun c => c.isWhitespace) = l := by
  cases l with
  | nil => rfl
  | cons a t =>
      have ha := hl a (List.mem_cons_self a t)
      rw [List.dropWhile_cons, digit_not_whitespace a ha.1 ha.2]
      rfl

/-- `strip()` is the identity on an all-digit sequence. -/
theorem stripChars_of_digits (cs : List Char)
    (h : ∀ c ∈ cs, '0' ≤ c ∧ c ≤ '9') : Ckpt.stripChars cs = cs := by
  unfold Ckpt.stripChars
  rw [dropWhile_whitespace_of_digits cs h,
    dropWhile_whitespace_of_digits cs.reverse
      (fun c hc => h c (List.mem_reverse.mp hc)),
    List.reverse_reverse]

/-- C8 amended: `save_resume_state` rewrites the checkpoint in place, so a
completed save round-trips (loading the fully written file returns exactly
the saved index), while a crash mid-save leaves either the old content
(before the truncating open) or some first part of the new numeral —
including the empty file and proper prefixes that load as wrong indices. -/
theorem save_roundtrip_and_crash_states (i : Nat) (old c : List Char)
    (h : c ∈ Ckpt.saveCrashStates old i) :
    Ckpt.load_resume_file (Ckpt.resumeText i) = i ∧
    (c = old ∨ ∃ j, c = (Ckpt.resumeText i).take j) := by
  constructor
  · unfold Ckpt.load_resume_file Ckpt.resumeText
    rw [stripChars_of_digits _ (decChars_all_digits i),
      parseNatChars_decChars]
    rfl
  · unfold Ckpt.saveCrashStates at h
    rw [List.mem_cons] at h
    rcases h with h | h
    · exact Or.inl h
    · rw [List.mem_map] at h
      obtain ⟨j, _, hj⟩ := h
      exact Or.inr ⟨j, hj.symm⟩

/-- Witness for C8: the completed save of 123 loads back as 123, and the
crash state holding only `1` is a first part of the new numeral. -/
theorem save_roundtrip_and_crash_states_witness :
    Ckpt.load_resume_file (Ckpt.resumeText 123) = 123 ∧
    ("1".data = "45".data ∨ ∃ j, "1".data = (Ckpt.resumeText 123).take j) :=
  save_roundtrip_and_crash_states 123 "45".data "1".data (by decide)

/-- Code-point comparison is reflexive. -/
theorem lexLe_refl : ∀ cs : List Char, lexLe cs cs = true := by
  intro cs
  induction cs with
  | nil => rfl
  | cons c t ih =>
      simp only [lexLe]
      simpa using ih

/-- Comparing two sequences with a common first part compares the
remainders. -/
theorem lexLe_append_same : ∀ p a b : List Char,
    lexLe (p ++ a) (p ++ b) = lexLe a b := by
  intro p
  induction p with
  | nil => intro a b; rfl
  | cons c cs ih =>
      intro a b
      simp only [List.cons_append, lexLe]
      simpa using ih a b

/-- Code-point comparison is total. -/
theorem lexLe_total : ∀ a b : List Char,
    lexLe a b = true ∨ lexLe b a = true := by
  intro a
  induction a with
  | nil => intro b; exact Or.inl rfl
  | cons c cs ih =>
      intro b
      cases b with
      | nil => exact Or.inr rfl
      | cons d ds =>
          simp only [lexLe]
          by_cases hcd : c = d
          · subst hcd
            rw [if_pos rfl, if_pos rfl]
            exact ih ds
          · rw [if_neg hcd, if_neg (Ne.symm hcd)]
            rcases lt_or_gt_of_ne hcd with h | h
            · exact Or.inl (by simp [h])
            · exact Or.inr (by simp [h])

/-- Code-point comparison is transitive. -/
theorem lexLe_trans : ∀ a b c : List Char,
    lexLe a b = true → lexLe b c = true → lexLe a c = true := by
  intro a
  induction a with
  | nil => intro b c _ _; rfl
  | cons x xs ih =>
      intro b c hab hbc
      cases b with
      | nil => simp [lexLe] at hab
      | cons y ys =>
          cases c with
          | nil => simp [lexLe] at hbc
          | cons z zs =>
              simp only [lexLe] at hab hbc ⊢
              by_cases hxy : x = y
              · subst hxy
                rw [if_pos rfl] at hab
                by_cases hyz : x = z
                · subst hyz
                  rw [if_pos rfl] at hbc ⊢
                  exact ih ys zs hab hbc
                · rw [if_neg hyz] at hbc ⊢
                  exact hbc
              · rw [if_neg hxy, decide_eq_true_eq] at hab
                by_cases hyz : y = z
                · subst hyz
                  rw [if_neg hxy, decide_eq_true_eq]
                  exact hab
                · rw [if_neg hyz, decide_eq_true_eq] at hbc
                  have hxz : x < z := lt_trans hab hbc
                  rw [if_neg (ne_of_lt hxz), decide_eq_true_eq]
                  exact hxz

/-- Digit characters are equal exactly when the digits are. -/
theorem digitChar_eq_iff (d e : Nat) (hd : d < 10) (he : e < 10) :
    Nat.digitChar d = Nat.digitChar e ↔ d = e := by
  interval_cases d <;> interval_cases e <;> decide

/-- Digit characters compare exactly as the digits do. -/
theorem digitChar_lt_iff (d e : Nat) (hd : d < 10) (he : e < 10) :
    Nat.digitChar d < Nat.digitChar e ↔ d < e := by
  interval_cases d <;> interval_cases e <;> decide

/-- Below 10000, the zero-padded rendering is exactly the four decimal
digits. -/
theorem pad4_decChars (n : Nat) (h : n < 10000) :
    pad4 (decChars n) =
      [Nat.digitChar (n / 1000 % 10), Nat.digitChar (n / 100 % 10),
       Nat.digitChar (n / 10 % 10), Nat.digitChar (n % 10)] := by
  rcases lt_or_le n 10 with h1 | h1
  · rw [pad4, decChars_lt10 n h1]
    have q1 : n / 1000 % 10 = 0 := by omega
    have q2 : n / 100 % 10 = 0 := by omega
    have q3 : n / 10 % 10 = 0 := by omega
    have q4 : n % 10 = n := by omega
    rw [q1, q2, q3, q4]
    rfl
  rcases lt_or_le n 100 with h2 | h2
  · have e1 : decChars n = [Nat.digitChar (n / 10), Nat.digitChar (n % 10)] := by
      rw [decChars_ge10 n h1, decChars_lt10 (n / 10) (by omega)]
      rfl
    rw [pad4, e1]
    have q1 : n / 1000 % 10 = 0 := by omega
    have q2 : n / 100 % 10 = 0 := by omega
    have q3 : n / 10 % 10 = n / 10 := by omega
    rw [q1, q2, q3]
    rfl
  rcases lt_or_le n 1000 with h3 | h3
  · have hd : n / 10 / 10 = n / 100 := by omega
    have e1 : decChars n =
        [Nat.digitChar (n / 100), Nat.digitChar (n / 10 % 10),
         Nat.digitChar (n % 10)] := by
      rw [decChars_ge10 n h1, decChars_ge10 (n / 10) (by omega), hd,
        decChars_lt10 (n / 100) (by omega)]
      rfl
    rw [pad4, e1]
    have q1 : n / 1000 % 10 = 0 := by omega
    have q2 : n / 100 % 10 = n / 100 := by omega
    rw [q1, q2]
    rfl
  · have hd1 : n / 10 / 10 = n / 100 := by omega
    have hd2 : n / 100 / 10 = n / 1000 := by omega
    have e1 : decChars n =
        [Nat.digitChar (n / 1000), Nat.digitChar (n / 100 % 10),
         Nat.digitChar (n / 10 % 10), Nat.digitChar (n % 10)] := by
      rw [decChars_ge10 n h1, decChars_ge10 (n / 10) (by omega), hd1,
        decChars_ge10 (n / 100) (by omega), hd2,
        decChars_lt10 (n / 1000) (by omega)]
      rfl
    rw [pad4, e1]
    have q1 : n / 1000 % 10 = n / 1000 := by omega
    rw [q1]
    rfl

/-- Below 10000, the file-name order of two batch numbers is their numeric
order: the `04d` padding makes the lexicographic comparison positional. -/
theorem fileOrder_iff_le (m n : Nat) (hm : m < 10000) (hn : n < 10000) :
    fileOrder m n ↔ m ≤ n := by
  have b1 : m / 1000 % 10 < 10 := by omega
  have b2 : m / 100 % 10 < 10 := by omega
  have b3 : m / 10 % 10 < 10 := by omega
  have b4 : m % 10 < 10 := by omega
  have c1 : n / 1000 % 10 < 10 := by omega
  have c2 : n / 100 % 10 < 10 := by omega
  have c3 : n / 10 % 10 < 10 := by omega
  have c4 : n % 10 < 10 := by omega
  unfold fileOrder batchFileChars
  rw [pad4_decChars m hm, pad4_decChars n hn]
  simp only [List.append_assoc]
  rw [lexLe_append_same]
  simp only [List.cons_append, List.nil_append]
  simp only [lexLe, if_true]
  split_ifs with h1 h2 h3 h4
  · rw [digitChar_eq_iff _ _ b1 c1] at h1
    rw [digitChar_eq_iff _ _ b2 c2] at h2
    rw [digitChar_eq_iff _ _ b3 c3] at h3
    rw [digitChar_eq_iff _ _ b4 c4] at h4
    constructor
    · intro _; omega
    · intro _; rfl
  · rw [digitChar_eq_iff _ _ b1 c1] at h1
    rw [digitChar_eq_iff _ _ b2 c2] at h2
    rw [digitChar_eq_iff _ _ b3 c3] at h3
    rw [digitChar_eq_iff _ _ b4 c4] at h4
    rw [decide_eq_true_eq, digitChar_lt_iff _ _ b4 c4]
    omega
  · rw [digitChar_eq_iff _ _ b1 c1] at h1
    rw [digitChar_eq_iff _ _ b2 c2] at h2
    rw [digitChar_eq_iff _ _ b3 c3] at h3
    rw [decide_eq_true_eq, digitChar_lt_iff _ _ b3 c3]
    omega
  · rw [digitChar_eq_iff _ _ b1 c1] at h1
    rw [digitChar_eq_iff _ _ b2 c2] at h2
    rw [decide_eq_true_eq, digitChar_lt_iff _ _ b2 c2]
    omega
  · rw [digitChar_eq_iff _ _ b1 c1] at h1
    rw [decide_eq_true_eq, digitChar_lt_iff _ _ b1 c1]
    omega

/-- Sorting batch numbers below 10000 by file name sorts them
numerically. -/
theorem insertionSort_fileOrder_eq (keys : List Nat)
    (hlt : ∀ k ∈ keys, k < 10000) :
    List.insertionSort fileOrder keys =
      List.insertionSort (fun m n : Nat => m ≤ n) keys := by
  haveI : IsTotal Nat fileOrder :=
    ⟨fun a b => lexLe_total (batchFileChars a) (batchFileChars b)⟩
  haveI : IsTrans Nat fileOrder :=
    ⟨fun a b c hab hbc => lexLe_trans _ _ _ hab hbc⟩
  have hperm : (List.insertionSort fileOrder keys).Perm
      (List.insertionSort (fun m n : Nat => m ≤ n) keys) :=
    (List.perm_insertionSort fileOrder keys).trans
      (List.perm_insertionSort _ keys).symm
  have hs1 : List.Sorted (fun m n : Nat => m ≤ n)
      (List.insertionSort fileOrder keys) := by
    refine (List.sorted_insertionSort fileOrder keys).imp_of_mem ?_
    intro a b ha hb hab
    have ha' : a ∈ keys :=
      (List.perm_insertionSort fileOrder keys).mem_iff.mp ha
    have hb' : b ∈ keys :=
      (List.perm_insertionSort fileOrder keys).mem_iff.mp hb
    exact (fileOrder_iff_le a b (hlt a ha') (hlt b hb')).mp hab
  have hs2 : List.Sorted (fun m n : Nat => m ≤ n)
      (List.insertionSort (fun m n : Nat => m ≤ n) keys) :=
    List.sorted_insertionSort _ keys
  exact List.eq_of_perm_of_sorted hperm hs1 hs2

/-- C9: the merge is idempotent — running it a second time over the same
batch files rewrites the identical final dataset — and its output is the
concatenation of the batch files in batch-number order (the `04d` padding
aligns file-name order with numeric order for the representable batch
numbers). -/
theorem merge_idempotent_and_ordered {α : Type} (st : Store α)
    (hlt : ∀ k ∈ fileKeys st.writes, k < 10000) :
    runMerge (runMerge st) = runMerge st ∧
    merge_batch_files st.writes =
      (if (fileKeys st.writes).isEmpty then none
       else
        some ((List.insertionSort (fun m n : Nat => m ≤ n)
          (fileKeys st.writes)).flatMap (readBatch st.writes))) := by
  obtain ⟨w, ff⟩ := st
  constructor
  · cases hm : merge_batch_files w with
    | none =>
        have h1 : runMerge (Store.mk w ff) = Store.mk w ff := by
          simp only [runMerge, hm]
        rw [h1, h1]
    | some d =>
        have h1 : ∀ f0 : Option (List α),
            runMerge (Store.mk w f0) = Store.mk w (some d) := by
          intro f0
          simp only [runMerge, hm]
        rw [h1 ff, h1 (some d)]
  · simp only [merge_batch_files]
    rw [insertionSort_fileOrder_eq (fileKeys w) hlt]
    by_cases hk : fileKeys w = []
    · rw [hk]
      rfl
    · have hne : List.insertionSort (fun m n : Nat => m ≤ n)
          (fileKeys w) ≠ [] := by
        intro hE
        have hperm := List.perm_insertionSort
          (fun m n : Nat => m ≤ n) (fileKeys w)
        rw [hE] at hperm
        exact hk hperm.symm.eq_nil
      rw [if_neg (by simp [List.isEmpty_iff, hne]),
        if_neg (by simp [List.isEmpty_iff, hk])]

/-- Witness for C9: a two-file store (batches 2 then 1) merges
idempotently, with the files concatenated in numeric batch order. -/
theorem merge_idempotent_and_ordered_witness :
    runMerge (runMerge (Store.mk [(2, [5]), (1, [7])]
        (none : Option (List Nat)))) =
      runMerge (Store.mk [(2, [5]), (1, [7])] none) ∧
    merge_batch_files
        (Store.mk [(2, [5]), (1, [7])] (none : Option (List Nat))).writes =
      (if (fileKeys (Store.mk [(2, [5]), (1, [7])]
            (none : Option (List Nat))).writes).isEmpty then none
       else
        some ((List.insertionSort (fun m n : Nat => m ≤ n)
          (fileKeys (Store.mk [(2, [5]), (1, [7])]
            (none : Option (List Nat))).writes)).flatMap
          (readBatch (Store.mk [(2, [5]), (1, [7])]
            (none : Option (List Nat))).writes))) :=
  merge_idempotent_and_ordered _ (by decide)

/-- A key is in a concatenated dict when it is in either part. -/
theorem hasKey_append (x y : GameRecord) (k : String) :
    hasKey (x ++ y) k = (hasKey x k || hasKey y k) := by
  unfold hasKey
  exact List.any_append

/-- Looking up a key that the later entries hold finds the later value
(Python assignment order: the last write to a key wins). -/
theorem dlookup_append_right (x y : GameRecord) (k : String)
    (h : hasKey y k = true) : dlookup (x ++ y) k = dlookup y k := by
  unfold dlookup
  rw [List.reverse_append, List.find?_append]
  have hsome : (y.reverse.find? (fun p => p.1 == k)).isSome = true := by
    rw [List.find?_isSome]
    unfold hasKey at h
    rw [List.any_eq_true] at h
    obtain ⟨p, hp, hpk⟩ := h
    exact ⟨p, List.mem_reverse.mpr hp, hpk⟩
  obtain ⟨v, hv⟩ := Option.isSome_iff_exists.mp hsome
  rw [hv]
  rfl

/-- Looking up a key absent from the later entries looks it up in the
earlier ones. -/
theorem dlookup_append_left (x y : GameRecord) (k : String)
    (h : hasKey y k = false) : dlookup (x ++ y) k = dlookup x k := by
  unfold dlookup
  rw [List.reverse_append, List.find?_append]
  have hnone : y.reverse.find? (fun p => p.1 == k) = none := by
    rw [List.find?_eq_none]
    intro p hp hpk
    unfold hasKey at h
    have : y.any (fun p => p.1 == k) = true :=
      List.any_eq_true.mpr ⟨p, List.mem_reverse.mp hp, hpk⟩
    rw [h] at this
    cases this
  rw [hnone]
  rfl

/-- Inside the team-stats block the guarded cell reads are plain
conversions. -/
theorem tsNum_of_nonempty (ps : Table) (r c : Nat) (hE : ps.isEmpty = false) :
    tsNum ps r c = (safe_convert_to_numeric (iloc ps r c)).map Val.num := by
  rw [tsNum, if_neg (by simp [hE])]

/-- The foul-differential assignment appends exactly `fdPart` when the
dict holds the two personal-foul conversions. -/
theorem fdExtend_eq (u : GameRecord) (ps : Table)
    (hH : dlookup u "Home_Personal_Fouls" = tsNum ps 9 1)
    (hA : dlookup u "Away_Personal_Fouls" = tsNum ps 9 2) :
    fdExtend u = u ++ fdPart ps := by
  unfold fdExtend fdPart
  rw [hH, hA]
  rcases tsNum ps 9 1 with _ | v1
  · simp
  · rcases v1 with s1 | x1
    · simp
    · rcases tsNum ps 9 2 with _ | v2
      · simp
      · rcases v2 with s2 | x2 <;> simp

/-- The free-throw-differential assignment appends exactly `ftdPart` when
the dict holds the two attempt conversions. -/
theorem ftdExtend_eq (u : GameRecord) (ps : Table)
    (hH : dlookup u "Home_FTA" = tsNum ps 8 1)
    (hA : dlookup u "Away_FTA" = tsNum ps 8 2) :
    ftdExtend u = u ++ ftdPart ps := by
  unfold ftdExtend ftdPart
  rw [hH, hA]
  rcases tsNum ps 8 1 with _ | v1
  · simp
  · rcases v1 with s1 | x1
    · simp
    · rcases tsNum ps 8 2 with _ | v2
      · simp
      · rcases v2 with s2 | x2 <;> simp

/-- `fdPart` carries the `Foul_Differential` key exactly when both
personal-foul conversions are non-null. -/
theorem hasKey_fdPart_FD (ps : Table) (hE : ps.isEmpty = false) :
    hasKey (fdPart ps) "Foul_Differential" =
      ((tsNum ps 9 1).isSome && (tsNum ps 9 2).isSome) := by
  unfold fdPart
  rw [tsNum_of_nonempty ps 9 1 hE, tsNum_of_nonempty ps 9 2 hE]
  rcases safe_convert_to_numeric (iloc ps 9 1) with _ | x1 <;>
    rcases safe_convert_to_numeric (iloc ps 9 2) with _ | x2 <;> rfl

/-- `ftdPart` carries the `Free_Throw_Differential` key exactly when both
attempt conversions are non-null. -/
theorem hasKey_ftdPart_FTD (ps : Table) (hE : ps.isEmpty = false) :
    hasKey (ftdPart ps) "Free_Throw_Differential" =
      ((tsNum ps 8 1).isSome && (tsNum ps 8 2).isSome) := by
  unfold ftdPart
  rw [tsNum_of_nonempty ps 8 1 hE, tsNum_of_nonempty ps 8 2 hE]
  rcases safe_convert_to_numeric (iloc ps 8 1) with _ | x1 <;>
    rcases safe_convert_to_numeric (iloc ps 8 2) with _ | x2 <;> rfl

/-- `fdPart` never carries the home-attempts key. -/
theorem hasKey_fdPart_HFTA (ps : Table) :
    hasKey (fdPart ps) "Home_FTA" = false := by
  unfold fdPart
  split <;> rfl

/-- `fdPart` never carries the away-attempts key. -/
theorem hasKey_fdPart_AFTA (ps : Table) :
    hasKey (fdPart ps) "Away_FTA" = false := by
  unfold fdPart
  split <;> rfl

/-- `fdPart` never carries the free-throw-differential key. -/
theorem hasKey_fdPart_FTD (ps : Table) :
    hasKey (fdPart ps) "Free_Throw_Differential" = false := by
  unfold fdPart
  split <;> rfl

/-- `ftdPart` never carries the foul-differential key. -/
theorem hasKey_ftdPart_FD (ps : Table) :
    hasKey (ftdPart ps) "Foul_Differential" = false := by
  unfold ftdPart
  split <;> rfl

/-- `ftdPart` never carries the home-personal-fouls key. -/
theorem hasKey_ftdPart_HPF (ps : Table) :
    hasKey (ftdPart ps) "Home_Personal_Fouls" = false := by
  unfold ftdPart
  split <;> rfl

/-- With a non-empty team-stats sub-table the record is the base entries,
the 16 team-stat entries, and the two conditional derived parts. -/
theorem game_info_some (gid gdate : Val) (bs : Option Table) (ps : Table)
    (off : Option (List (Option String))) (hE : ps.isEmpty = false) :
    game_info gid gdate bs (some ps) off =
      ((baseRecord gid gdate bs off ++ teamStatsEntries ps) ++ fdPart ps)
        ++ ftdPart ps := by
  have hHPF : dlookup (baseRecord gid gdate bs off ++ teamStatsEntries ps)
      "Home_Personal_Fouls" = tsNum ps 9 1 := by
    rw [dlookup_append_right (baseRecord gid gdate bs off)
      (teamStatsEntries ps) "Home_Personal_Fouls" (by rfl)]
    rfl
  have hAPF : dlookup (baseRecord gid gdate bs off ++ teamStatsEntries ps)
      "Away_Personal_Fouls" = tsNum ps 9 2 := by
    rw [dlookup_append_right (baseRecord gid gdate bs off)
      (teamStatsEntries ps) "Away_Personal_Fouls" (by rfl)]
    rfl
  have hHFTA : dlookup
      ((baseRecord gid gdate bs off ++ teamStatsEntries ps) ++ fdPart ps)
      "Home_FTA" = tsNum ps 8 1 := by
    rw [dlookup_append_left _ _ _ (hasKey_fdPart_HFTA ps),
      dlookup_append_right (baseRecord gid gdate bs off)
        (teamStatsEntries ps) "Home_FTA" (by rfl)]
    rfl
  have hAFTA : dlookup
      ((baseRecord gid gdate bs off ++ teamStatsEntries ps) ++ fdPart ps)
      "Away_FTA" = tsNum ps 8 2 := by
    rw [dlookup_append_left _ _ _ (hasKey_fdPart_AFTA ps),
      dlookup_append_right (baseRecord gid gdate bs off)
        (teamStatsEntries ps) "Away_FTA" (by rfl)]
    rfl
  simp only [game_info]
  rw [if_neg (by simp [hE]),
    fdExtend_eq _ ps hHPF hAPF, ftdExtend_eq _ ps hHFTA hAFTA]

/-- C7 amended: every record carries the 15 base fields; the team-stat key
`Home_Personal_Fouls` is present exactly when the team-stats sub-table
exists and is non-empty; each derived key is present exactly when
additionally both of its inputs are non-null, in which case it holds the
computed difference — otherwise the key is absent from the record rather
than null. -/
theorem record_schema_and_derived_fields (gid gdate : Val)
    (bs ts : Option Table) (off : Option (List (Option String))) :
    baseKeys.all (fun k => hasKey (game_info gid gdate bs ts off) k) = true ∧
    hasKey (game_info gid gdate bs ts off) "Foul_Differential" =
      derivedPresent ts 9 ∧
    hasKey (game_info gid gdate bs ts off) "Free_Throw_Differential" =
      derivedPresent ts 8 ∧
    hasKey (game_info gid gdate bs ts off) "Home_Personal_Fouls" =
      tsPresent ts ∧
    (∀ ps h a, ts = some ps → ps.isEmpty = false →
      tsNum ps 9 1 = some (Val.num h) → tsNum ps 9 2 = some (Val.num a) →
      dlookup (game_info gid gdate bs ts off) "Foul_Differential" =
        some (Val.num (h - a))) ∧
    (∀ ps h a, ts = some ps → ps.isEmpty = false →
      tsNum ps 8 1 = some (Val.num h) → tsNum ps 8 2 = some (Val.num a) →
      dlookup (game_info gid gdate bs ts off) "Free_Throw_Differential" =
        some (Val.num (h - a))) := by
  rcases ts with _ | ps
  · refine ⟨rfl, rfl, rfl, rfl, ?_, ?_⟩
    · intro ps h a heq
      exact absurd heq (by simp)
    · intro ps h a heq
      exact absurd heq (by simp)
  · by_cases hEc : ps.isEmpty = true
    · have hgi : game_info gid gdate bs (some ps) off =
          baseRecord gid gdate bs off := by
        simp only [game_info]
        rw [if_pos hEc]
      refine ⟨?_, ?_, ?_, ?_, ?_, ?_⟩
      · rw [hgi]
        rfl
      · have hb : hasKey (baseRecord gid gdate bs off) "Foul_Differential" =
            false := rfl
        rw [hgi, hb]
        simp only [derivedPresent]
        rw [hEc]
        rfl
      · have hb : hasKey (baseRecord gid gdate bs off)
            "Free_Throw_Differential" = false := rfl
        rw [hgi, hb]
        simp only [derivedPresent]
        rw [hEc]
        rfl
      · have hb : hasKey (baseRecord gid gdate bs off) "Home_Personal_Fouls" =
            false := rfl
        rw [hgi, hb]
        simp only [tsPresent]
        rw [hEc]
        rfl
      · intro ps' h a heq hEf
        injection heq with heq'
        rw [← heq', hEc] at hEf
        cases hEf
      · intro ps' h a heq hEf
        injection heq with heq'
        rw [← heq', hEc] at hEf
        cases hEf
    · have hE : ps.isEmpty = false := by
        revert hEc
        cases ps.isEmpty <;> simp
      have hgi := game_info_some gid gdate bs ps off hE
      refine ⟨?_, ?_, ?_, ?_, ?_, ?_⟩
      · rw [hgi, List.all_eq_true]
        intro k hk
        rw [hasKey_append, hasKey_append, hasKey_append]
        have hall : baseKeys.all
            (fun k => hasKey (baseRecord gid gdate bs off) k) = true := rfl
        rw [List.all_eq_true] at hall
        rw [hall k hk]
        rfl
      · have hb : hasKey (baseRecord gid gdate bs off) "Foul_Differential" =
            false := rfl
        have ht : hasKey (teamStatsEntries ps) "Foul_Differential" =
            false := rfl
        rw [hgi, hasKey_append, hasKey_append, hasKey_append, hb, ht,
          hasKey_ftdPart_FD ps, hasKey_fdPart_FD ps hE]
        simp only [derivedPresent]
        rw [hE]
        simp
      · have hb : hasKey (baseRecord gid gdate bs off)
            "Free_Throw_Differential" = false := rfl
        have ht : hasKey (teamStatsEntries ps) "Free_Throw_Differential" =
            false := rfl
        rw [hgi, hasKey_append, hasKey_append, hasKey_append, hb, ht,
          hasKey_fdPart_FTD ps, hasKey_ftdPart_FTD ps hE]
        simp only [derivedPresent]
        rw [hE]
        simp
      · have hb : hasKey (baseRecord gid gdate bs off) "Home_Personal_Fouls" =
            false := rfl
        have ht : hasKey (teamStatsEntries ps) "Home_Personal_Fouls" =
            true := rfl
        rw [hgi, hasKey_append, hasKey_append, hasKey_append, hb, ht,
          hasKey_ftdPart_HPF ps]
        simp only [tsPresent]
        rw [hE]
        simp
      · intro ps' h a heq hEf h91 h92
        injection heq with heq'
        subst heq'
        have hfdps : fdPart ps =
            [("Foul_Differential", some (Val.num (h - a))),
             ("Total_Fouls", some (Val.num (h + a)))] := by
          unfold fdPart
          rw [h91, h92]
        rw [hgi, dlookup_append_left _ _ _ (hasKey_ftdPart_FD ps), hfdps,
          dlookup_append_right
            (baseRecord gid gdate bs off ++ teamStatsEntries ps)
            [("Foul_Differential", some (Val.num (h - a))),
             ("Total_Fouls", some (Val.num (h + a)))]
            "Foul_Differential" (by rfl)]
        rfl
      · intro ps' h a heq hEf h81 h82
        injection heq with heq'
        subst heq'
        have hftdps : ftdPart ps =
            [("Free_Throw_Differential", some (Val.num (h - a)))] := by
          unfold ftdPart
          rw [h81, h82]
        rw [hgi, hftdps, dlookup_append_right
          ((baseRecord gid gdate bs off ++ teamStatsEntries ps) ++ fdPart ps)
          [("Free_Throw_Differential", some (Val.num (h - a)))]
          "Free_Throw_Differential" (by rfl)]
        rfl

/-- Witness for C7: on a fully populated team-stats sub-table (home values
`r+1`, away values `r+2`), the schema facts hold and the foul differential
is computed as `10 - 11`. -/
theorem record_schema_and_derived_fields_witness :
    baseKeys.all (fun k => hasKey
      (game_info (Val.num 1) (Val.str "d") none (some tsFull) none) k) =
        true ∧
    dlookup (game_info (Val.num 1) (Val.str "d") none (some tsFull) none)
      "Foul_Differential" = some (Val.num (10 - 11)) := by
  have h := record_schema_and_derived_fields (Val.num 1) (Val.str "d") none
    (some tsFull) none
  exact ⟨h.1, h.2.2.2.2.1 tsFull 10 11 rfl (by decide) (by decide)
    (by decide)⟩

/-- C10: with no batch files in the save directory, `merge_batch_files`
returns `None` and the merge step writes nothing, leaving any pre-existing
final dataset file untouched. -/
theorem empty_merge_writes_nothing {α : Type} (st : Store α)
    (h : st.writes = []) :
    merge_batch_files st.writes = none ∧ runMerge st = st := by
  have hm : merge_batch_files st.writes = none := by
    rw [h]
    rfl
  refine ⟨hm, ?_⟩
  unfold runMerge
  rw [hm]

/-- Witness for C10: a store with no batch files but a pre-existing final
dataset is left exactly as it is. -/
theorem empty_merge_writes_nothing_witness :
    merge_batch_files (Store.mk ([] : List (Nat × List Nat)) (some [7])).writes
      = none ∧
    runMerge (Store.mk ([] : List (Nat × List Nat)) (some [7])) =
      Store.mk [] (some [7]) :=
  empty_merge_writes_nothing (Store.mk [] (some [7])) rfl

end Scraper
